import Mathlib

/-!
Verification of the git-tokens secret scanner (src/scanner/scanner.go, the
authoritative version of the module at lines 1-576; the file also contains two
superseded rewrites of the same module, which the design notes instruct to
discard).  The scanner clones registered git repositories, enumerates commits
not yet marked as scanned, greps each unscanned commit for every registered
secret-type pattern, and persists findings and scanned-commit markers through
idempotent (INSERT OR IGNORE) writes into a SQLite store.

The embedding below models:
- the four store tables and their INSERT OR IGNORE operations, keyed exactly as
  the schema of createTablesIfNotExist declares them (scanner.go lines 34-90);
- the worker body scanCommit (lines 374-430) as the list of results it sends on
  the result channel, with its per-secret-type compile/grep error behaviour;
- the enumerator and per-repository orchestration scanRepo (lines 432-537);
- the aggregator storeScanResults (lines 344-372);
- the entry points ScanSingleRepo (lines 539-556) and ScanAll (lines 558-576);
- the happens-before order induced by the wait groups and deferred Done calls,
  and the state machine of the single result channel, for the temporal claims.

External collaborators (go-git clone/log/grep, regexp.Compile) are abstracted
as a parameter structure of functions, as the specification treats them as
out-of-scope collaborators.  Timestamp columns (CURRENT_TIMESTAMP) are not
modelled; no claim mentions them.  SQLite store errors are modelled as absent:
every claim under scrutiny concerns the scanner's own logic, and the source
logs and ignores store errors during aggregation.
-/

namespace GitTokens

/-- Row of the secret_types table and the SecretType struct (scanner.go
lines 142-145): a name (PRIMARY KEY) and a regex pattern. -/
structure SecretType where
  name : String
  regex : String
deriving DecidableEq, Repr

/-- One match returned by repo.Grep (go-git GrepResult as consumed at
scanner.go lines 411-426): file name, line number, matched line content and
the tree name of the searched commit. -/
structure GrepResult where
  fileName : String
  lineNumber : Int
  content : String
  treeName : String
deriving DecidableEq, Repr

/-- The Finding struct (scanner.go lines 259-267), minus the
LastScannedTimestamp field: the stored column last_scanned_ts is filled with
CURRENT_TIMESTAMP by the store and no claim mentions it. -/
structure Finding where
  fileName : String
  lineNumber : Int
  content : String
  treeName : String
  repository : String
  secretType : String
deriving DecidableEq, Repr

/-- The scanResult struct sent on the result channel (scanner.go lines 18-23):
repository URL, commit hash, a flag distinguishing an attempted-but-no-finding
result from a finding result, and the finding payload. -/
structure ScanResult where
  repoUrl : String
  commitHash : String
  hasFinding : Bool
  finding : Finding
deriving DecidableEq, Repr

/-- Zero value of Finding that Go sends with hasFinding = false
(scanner.go lines 404-409). -/
def emptyFinding : Finding :=
  { fileName := "", lineNumber := 0, content := "", treeName := "",
    repository := "", secretType := "" }

/-- State of the four durable tables created by createTablesIfNotExist
(scanner.go lines 34-90).  PRIMARY KEYs per the schema: repositories.url;
secret_types.name; scanned_commits (repository, commit_hash); findings
(repository, tree_name).  Rows are kept in insertion order; the timestamp
columns are not modelled. -/
structure Store where
  repositories : List String
  secretTypes : List SecretType
  scannedCommits : List (String × String)
  findings : List Finding
deriving DecidableEq, Repr

/-- AddSecretType (scanner.go lines 129-140): INSERT OR IGNORE INTO
secret_types, so the insert is dropped exactly when a row with the same name
(the PRIMARY KEY) exists.  The regex string is not inspected in any way. -/
def Store.addSecretType (st : Store) (nm rx : String) : Store :=
  if ∃ t ∈ st.secretTypes, t.name = nm then st
  else { st with secretTypes := st.secretTypes ++ [⟨nm, rx⟩] }

/-- AddRepo (scanner.go lines 174-184): INSERT OR IGNORE INTO repositories,
keyed on url. -/
def Store.addRepo (st : Store) (url : String) : Store :=
  if url ∈ st.repositories then st
  else { st with repositories := st.repositories ++ [url] }

/-- AddScannedCommit (scanner.go lines 243-257): INSERT OR IGNORE INTO
scanned_commits, whose PRIMARY KEY is (repository, commit_hash). -/
def Store.addScannedCommit (st : Store) (repoUrl hash : String) : Store :=
  if (repoUrl, hash) ∈ st.scannedCommits then st
  else { st with scannedCommits := st.scannedCommits ++ [(repoUrl, hash)] }

/-- AddFinding (scanner.go lines 269-300): INSERT OR IGNORE INTO findings,
whose PRIMARY KEY is (repository, tree_name) (schema at lines 72-89).  The
insert is therefore dropped whenever any row with the same repository and
tree_name exists, regardless of secret type, file name, line number or
content. -/
def Store.addFinding (st : Store) (f : Finding) : Store :=
  if ∃ g ∈ st.findings, g.repository = f.repository ∧ g.treeName = f.treeName
  then st
  else { st with findings := st.findings ++ [f] }

/-- Body of the aggregator loop in storeScanResults (scanner.go lines 347-369):
for EVERY received result, first insert a scanned-commit marker for its
(repoUrl, commitHash), then, if the result carries a finding, insert the
finding.  Store errors are logged and the write dropped; they are modelled as
absent. -/
def applyScanResult (acc : Store) (r : ScanResult) : Store :=
  let acc2 := acc.addScannedCommit r.repoUrl r.commitHash
  if r.hasFinding then acc2.addFinding r.finding else acc2

/-- storeScanResults (scanner.go lines 344-372): the single consumer draining
the result channel until it closes, applying applyScanResult to each result in
arrival order. -/
def storeScanResults (st : Store) (results : List ScanResult) : Store :=
  results.foldl applyScanResult st

/-- External collaborators of the scanner, abstracted as functions:
compileOk models success of regexp.Compile on a pattern (scanner.go line 389);
cloneOk models success of the pre-job sequence os.MkdirTemp, git.PlainClone,
repo.Head, repo.Log and GetSecretTypes inside scanRepo (lines 468-505), each
of whose failures returns from scanRepo before any job is spawned;
log gives the commit hashes enumerated from HEAD backward (lines 489-499);
grep repoUrl pattern commitHash models repo.Grep restricted to one compiled
pattern and one commit (lines 395-402), with none modelling a grep error. -/
structure Collab where
  compileOk : String → Bool
  cloneOk : String → Bool
  log : String → List String
  grep : String → String → String → Option (List GrepResult)

/-- scanCommit (scanner.go lines 374-430), the worker body, as the list of
results it sends on the result channel paired with an error flag.  For each
secret type in list order: compile the pattern — on failure log and return,
so the loop aborts and later secret types of this job are never attempted,
while results already sent for earlier types stand; grep the commit — on
failure likewise return; otherwise send one attempted result (hasFinding =
false, empty finding) and then one finding result per grep match.  The error
return value of the goroutine is discarded by the caller (line 520). -/
def scanCommit (v : Collab) (repoUrl commitHash : String) :
    List SecretType → List ScanResult × Bool
  | [] => ([], false)
  | t :: rest =>
    if v.compileOk t.regex then
      match v.grep repoUrl t.regex commitHash with
      | none => ([], true)
      | some grs =>
        let sent : List ScanResult :=
          ⟨repoUrl, commitHash, false, emptyFinding⟩ ::
            grs.map (fun g =>
              ⟨repoUrl, commitHash, true,
                ⟨g.fileName, g.lineNumber, g.content, g.treeName,
                  repoUrl, t.name⟩⟩)
        let res := scanCommit v repoUrl commitHash rest
        (sent ++ res.1, res.2)
    else ([], true)

/-- Scanned hashes read at the start of scanRepo (scanner.go lines 435-466):
SELECT DISTINCT commit_hash FROM scanned_commits WHERE repository = repoUrl. -/
def scannedHashesFor (st : Store) (repoUrl : String) : List String :=
  (((st.scannedCommits.filter (fun p => p.1 = repoUrl)).map
    (fun p => p.2))).dedup

/-- Job filter inside scanRepo's ForEach (scanner.go lines 508-531): a commit
is submitted as a job iff its hash is not among the scanned hashes read at the
start of the run (the loop sets commitHasBeenScanned on string equality). -/
def unscannedCommits (scanned commits : List String) : List String :=
  commits.filter (fun c => decide (c ∉ scanned))

/-- Jobs spawned by scanRepo for one repository: the commits of the clone's
HEAD history that are not in the scanned set read at run start. -/
def scanRepoJobs (v : Collab) (st : Store) (repoUrl : String) : List String :=
  unscannedCommits (scannedHashesFor st repoUrl) (v.log repoUrl)

/-- Results produced for one repository by scanRepo's workers (scanner.go
lines 507-533): nothing when the clone sequence fails (lines 468-505 return
before any job is spawned), otherwise each job's scanCommit sends.  The
workers run concurrently and their sends interleave arbitrarily at the
aggregator; this canonical order concatenates each job's sends in history
order.  Every theorem below depends only on data invariant under reordering
of this list (membership and key sets of keyed OR IGNORE inserts), so the
choice of interleaving is immaterial. -/
def scanRepoResults (v : Collab) (st : Store) (repoUrl : String) :
    List ScanResult :=
  if v.cloneOk repoUrl then
    (scanRepoJobs v st repoUrl).flatMap
      (fun c => (scanCommit v repoUrl c st.secretTypes).1)
  else []

/-- scanRepo (scanner.go lines 432-537) combined with the aggregation of the
results its workers send: the updated store, and the error flag reporting the
clone-sequence failure (each early return of lines 447-505). -/
def scanRepo (v : Collab) (st : Store) (repoUrl : String) : Store × Bool :=
  (storeScanResults st (scanRepoResults v st repoUrl), !(v.cloneOk repoUrl))

/-- ScanSingleRepo (scanner.go lines 539-556): GetRepo fails when the URL is
not a registered repository (rows.Scan on an empty cursor, lines 190-214), in
which case ScanSingleRepo returns that error (modelled as none) before
starting the aggregator or any scan; otherwise one scanRepo run is drained by
storeScanResults and the result channel is closed.  The error flag of scanRepo
itself is discarded (ScanSingleRepo returns nil after wg.Wait). -/
def scanSingleRepo (v : Collab) (st : Store) (repoUrl : String) :
    Option Store :=
  if repoUrl ∈ st.repositories then some (scanRepo v st repoUrl).1 else none

/-- Fold of scanRepo over a list of repository URLs. -/
def scanAllFrom (v : Collab) (st : Store) (urls : List String) : Store :=
  urls.foldl (fun acc url => (scanRepo v acc url).1) st

/-- ScanAll (scanner.go lines 558-576): one scanRepo per registered
repository, all drained by the single aggregator.  The concurrent repository
scans are modelled sequentially: registered URLs are pairwise distinct
(repositories.url is the PRIMARY KEY), each scanRepo reads only the
scanned_commits rows keyed by its own URL and the secret_types table, and no
scan write touches secret_types or another repository's keys, so the final
table contents are independent of the interleaving. -/
def scanAll (v : Collab) (st : Store) : Store :=
  scanAllFrom v st st.repositories

/-- Synchronization events of one ScanAll (or, with one repository, one
ScanSingleRepo) invocation.  Indices denote, when the corresponding goroutine
exists: send r c k — the k-th channel send of the scanCommit worker spawned
for the c-th unscanned commit of the r-th repository (scanner.go lines 404 and
412); workerDone r c — that worker's deferred scanCommitWaitGroup.Done (line
382); innerWaitRet r — scanRepo's scanCommitWaitGroup.Wait returning (line
533); repoDone r — scanRepo's deferred wg.Done on the outer wait group (line
433); outerWaitRet — wg.Wait returning in ScanAll/ScanSingleRepo (lines 571,
551); closeChan — close of s.scanResultChan (lines 573, 553). -/
inductive Ev where
  | send (r c k : Nat)
  | workerDone (r c : Nat)
  | innerWaitRet (r : Nat)
  | repoDone (r : Nat)
  | outerWaitRet
  | closeChan
deriving DecidableEq, Repr

/-- Happens-before order of one scan invocation, generated by the program
order of each goroutine, goroutine spawning, and the Go sync.WaitGroup
guarantee that every Done happens before the matching Wait returns.  Each
base edge is read off the source:
send_done — a worker's deferred wg.Done runs when scanCommit returns, after
every send of its body (scanner.go lines 381-384 versus 404 and 412);
done_innerWait — every worker spawned for repository r is registered with
Add(1) before the go statement (lines 519-526), so its Done happens before
scanCommitWaitGroup.Wait returns (line 533);
innerWait_repoDone — scanRepo's deferred wg.Done runs at return, after the
inner Wait at the end of its body (lines 433, 533-536);
repoDone_outerWait — every scanRepo goroutine is registered with wg.Add(1)
before being spawned (lines 568-569, 549-550), so its Done happens before
wg.Wait returns (lines 571, 551);
outerWait_close — close(s.scanResultChan) follows wg.Wait in program order of
the caller (lines 571-573, 551-553). -/
inductive HB : Ev → Ev → Prop where
  | send_done (r c k : Nat) : HB (.send r c k) (.workerDone r c)
  | done_innerWait (r c : Nat) : HB (.workerDone r c) (.innerWaitRet r)
  | innerWait_repoDone (r : Nat) : HB (.innerWaitRet r) (.repoDone r)
  | repoDone_outerWait (r : Nat) : HB (.repoDone r) .outerWaitRet
  | outerWait_close : HB .outerWaitRet .closeChan
  | trans (a b c : Ev) : HB a b → HB b c → HB a c

/-- State of the single result channel created once by NewScanner
(scanner.go line 98). -/
inductive ChanState where
  | opened
  | closed
deriving DecidableEq, Repr

/-- Operations a scan invocation performs on the result channel: a worker
send, or the final close. -/
inductive ChanOp where
  | send
  | close
deriving DecidableEq, Repr

/-- Go channel semantics restricted to the operations the scanner performs
(the aggregator always drains the open channel, so an open-channel send
succeeds): sending on a closed channel panics, and closing a closed channel
panics; none models the panic. -/
def chanRun : ChanState → List ChanOp → Option ChanState
  | s, [] => some s
  | .opened, .send :: rest => chanRun .opened rest
  | .closed, .send :: _ => none
  | .opened, .close :: rest => chanRun .closed rest
  | .closed, .close :: _ => none

/-- Channel operations of one scan invocation that reaches the scanning
phase: all worker sends (n in total), then exactly one close — the ordering
established for C3 puts every send before the close. -/
def scanChanOps (n : Nat) : List ChanOp :=
  List.replicate n .send ++ [.close]

/-- Channel operations performed by one ScanSingleRepo call (scanner.go lines
539-556): a call on an unregistered URL returns the GetRepo error before the
aggregator is started and before any send or close; a call on a registered
URL performs every worker send and then the close at line 553. -/
def scanSingleRepoChanOps (v : Collab) (st : Store) (repoUrl : String) :
    List ChanOp :=
  if repoUrl ∈ st.repositories then
    scanChanOps (scanRepoResults v st repoUrl).length
  else []

/-- Total number of sends of one ScanAll call, accumulated over the
registered repositories against the evolving store. -/
def scanAllSendCount (v : Collab) (st : Store) : Nat :=
  (st.repositories.foldl
    (fun p url => ((scanRepo v p.1 url).1, p.2 + (scanRepoResults v p.1 url).length))
    (st, 0)).2

/-- Channel operations performed by one ScanAll call (scanner.go lines
558-576): every worker send across all repositories, then the close at line
573. -/
def scanAllChanOps (v : Collab) (st : Store) : List ChanOp :=
  scanChanOps (scanAllSendCount v st)

/-! Helper lemmas about the store operations and the aggregator. -/

lemma scannedCommits_addFinding (st : Store) (f : Finding) :
    (st.addFinding f).scannedCommits = st.scannedCommits := by
  unfold Store.addFinding; split <;> rfl

lemma repositories_addFinding (st : Store) (f : Finding) :
    (st.addFinding f).repositories = st.repositories := by
  unfold Store.addFinding; split <;> rfl

lemma secretTypes_addFinding (st : Store) (f : Finding) :
    (st.addFinding f).secretTypes = st.secretTypes := by
  unfold Store.addFinding; split <;> rfl

lemma repositories_addScannedCommit (st : Store) (u h : String) :
    (st.addScannedCommit u h).repositories = st.repositories := by
  unfold Store.addScannedCommit; split <;> rfl

lemma secretTypes_addScannedCommit (st : Store) (u h : String) :
    (st.addScannedCommit u h).secretTypes = st.secretTypes := by
  unfold Store.addScannedCommit; split <;> rfl

lemma findings_addScannedCommit (st : Store) (u h : String) :
    (st.addScannedCommit u h).findings = st.findings := by
  unfold Store.addScannedCommit; split <;> rfl

lemma mem_scannedCommits_addScannedCommit (st : Store) (u h : String)
    (k : String × String) :
    k ∈ (st.addScannedCommit u h).scannedCommits ↔
      k ∈ st.scannedCommits ∨ k = (u, h) := by
  unfold Store.addScannedCommit
  split
  · rename_i hmem
    constructor
    · exact Or.inl
    · rintro (hk | rfl)
      · exact hk
      · exact hmem
  · simp

lemma mem_scannedCommits_applyScanResult (acc : Store) (r : ScanResult)
    (k : String × String) :
    k ∈ (applyScanResult acc r).scannedCommits ↔
      k ∈ acc.scannedCommits ∨ k = (r.repoUrl, r.commitHash) := by
  unfold applyScanResult
  split
  · rw [scannedCommits_addFinding]
    exact mem_scannedCommits_addScannedCommit acc r.repoUrl r.commitHash k
  · exact mem_scannedCommits_addScannedCommit acc r.repoUrl r.commitHash k

lemma mem_scannedCommits_storeScanResults (rs : List ScanResult) (st : Store)
    (k : String × String) :
    k ∈ (storeScanResults st rs).scannedCommits ↔
      k ∈ st.scannedCommits ∨ ∃ r ∈ rs, k = (r.repoUrl, r.commitHash) := by
  induction rs generalizing st with
  | nil => simp [storeScanResults]
  | cons r rs ih =>
    show k ∈ (storeScanResults (applyScanResult st r) rs).scannedCommits ↔ _
    rw [ih, mem_scannedCommits_applyScanResult]
    simp only [List.mem_cons]
    constructor
    · rintro ((hk | hk) | hk)
      · exact Or.inl hk
      · exact Or.inr ⟨r, Or.inl rfl, hk⟩
      · rcases hk with ⟨x, hx, hkx⟩
        exact Or.inr ⟨x, Or.inr hx, hkx⟩
    · rintro (hk | ⟨x, (rfl | hx), hkx⟩)
      · exact Or.inl (Or.inl hk)
      · exact Or.inl (Or.inr hkx)
      · exact Or.inr ⟨x, hx, hkx⟩

lemma repositories_storeScanResults (rs : List ScanResult) (st : Store) :
    (storeScanResults st rs).repositories = st.repositories := by
  induction rs generalizing st with
  | nil => rfl
  | cons r rs ih =>
    show (storeScanResults (applyScanResult st r) rs).repositories = _
    rw [ih]
    unfold applyScanResult
    split
    · rw [repositories_addFinding, repositories_addScannedCommit]
    · rw [repositories_addScannedCommit]

lemma secretTypes_storeScanResults (rs : List ScanResult) (st : Store) :
    (storeScanResults st rs).secretTypes = st.secretTypes := by
  induction rs generalizing st with
  | nil => rfl
  | cons r rs ih =>
    show (storeScanResults (applyScanResult st r) rs).secretTypes = _
    rw [ih]
    unfold applyScanResult
    split
    · rw [secretTypes_addFinding, secretTypes_addScannedCommit]
    · rw [secretTypes_addScannedCommit]

lemma mem_scannedHashesFor (st : Store) (u c : String) :
    c ∈ scannedHashesFor st u ↔ (u, c) ∈ st.scannedCommits := by
  unfold scannedHashesFor
  rw [List.mem_dedup, List.mem_map]
  constructor
  · rintro ⟨⟨a, b⟩, hp, rfl⟩
    rcases List.mem_filter.mp hp with ⟨hmem, heq⟩
    simp only [decide_eq_true_eq] at heq
    exact heq ▸ hmem
  · intro hmem
    exact ⟨(u, c), List.mem_filter.mpr ⟨hmem, by simp⟩, rfl⟩

lemma nodup_scannedCommits_addScannedCommit (st : Store) (u h : String)
    (hd : st.scannedCommits.Nodup) :
    (st.addScannedCommit u h).scannedCommits.Nodup := by
  unfold Store.addScannedCommit
  split
  · exact hd
  · rename_i hmem
    simpa [List.nodup_append] using ⟨hd, hmem⟩

lemma nodup_scannedCommits_storeScanResults (rs : List ScanResult)
    (st : Store) (hd : st.scannedCommits.Nodup) :
    (storeScanResults st rs).scannedCommits.Nodup := by
  induction rs generalizing st with
  | nil => exact hd
  | cons r rs ih =>
    show (storeScanResults (applyScanResult st r) rs).scannedCommits.Nodup
    apply ih
    unfold applyScanResult
    split
    · rw [scannedCommits_addFinding]
      exact nodup_scannedCommits_addScannedCommit st r.repoUrl r.commitHash hd
    · exact nodup_scannedCommits_addScannedCommit st r.repoUrl r.commitHash hd

/-! Helper lemmas about the worker body and the per-repository run. -/

lemma keys_scanCommit (v : Collab) (u c : String) (ts : List SecretType) :
    ∀ r ∈ (scanCommit v u c ts).1, r.repoUrl = u ∧ r.commitHash = c := by
  induction ts with
  | nil => intro r hr; simp [scanCommit] at hr
  | cons t rest ih =>
    intro r hr
    unfold scanCommit at hr
    split at hr
    · rename_i hco
      cases hg : v.grep u t.regex c with
      | none => rw [hg] at hr; simp at hr
      | some grs =>
        rw [hg] at hr
        simp only [List.mem_append, List.mem_cons, List.mem_map] at hr
        rcases hr with ((rfl | ⟨g, _, rfl⟩) | hr)
        · exact ⟨rfl, rfl⟩
        · exact ⟨rfl, rfl⟩
        · exact ih r hr
    · simp at hr

lemma attempted_mem_scanCommit (v : Collab) (u c : String) (t : SecretType)
    (rest : List SecretType) (hco : v.compileOk t.regex = true)
    (hg : (v.grep u t.regex c).isSome = true) :
    (⟨u, c, false, emptyFinding⟩ : ScanResult) ∈
      (scanCommit v u c (t :: rest)).1 := by
  rcases Option.isSome_iff_exists.mp hg with ⟨grs, hgrs⟩
  unfold scanCommit
  rw [hco, hgrs]
  simp

lemma scanCommit_error_free (v : Collab) (u c : String)
    (ts : List SecretType)
    (hok : ∀ t ∈ ts, v.compileOk t.regex = true ∧
      (v.grep u t.regex c).isSome = true) :
    (scanCommit v u c ts).2 = false := by
  induction ts with
  | nil => rfl
  | cons t rest ih =>
    rcases hok t (List.mem_cons_self t rest) with ⟨hco, hg⟩
    rcases Option.isSome_iff_exists.mp hg with ⟨grs, hgrs⟩
    unfold scanCommit
    rw [hco, hgrs]
    simpa using ih (fun x hx => hok x (List.mem_cons_of_mem t hx))

lemma scanCommit_nil_types (v : Collab) (u c : String) :
    scanCommit v u c [] = ([], false) := rfl

/-- Completeness core: after an error-free scanRepo run with at least one
registered secret type, every commit of the HEAD history has its marker in
the scanned-commit set. -/
lemma mem_scanned_after_scanRepo (v : Collab) (st : Store) (u : String)
    (hclone : v.cloneOk u = true)
    (hM : st.secretTypes ≠ [])
    (hok : ∀ t ∈ st.secretTypes, v.compileOk t.regex = true ∧
      ∀ c ∈ v.log u, (v.grep u t.regex c).isSome = true)
    (c : String) (hc : c ∈ v.log u) :
    (u, c) ∈ (scanRepo v st u).1.scannedCommits := by
  unfold scanRepo
  rw [mem_scannedCommits_storeScanResults]
  by_cases hsc : c ∈ scannedHashesFor st u
  · exact Or.inl ((mem_scannedHashesFor st u c).mp hsc)
  · refine Or.inr ⟨⟨u, c, false, emptyFinding⟩, ?_, rfl⟩
    unfold scanRepoResults
    simp only [hclone, if_true]
    rw [List.mem_flatMap]
    refine ⟨c, ?_, ?_⟩
    · unfold scanRepoJobs unscannedCommits
      exact List.mem_filter.mpr ⟨hc, by simpa using hsc⟩
    · cases hts : st.secretTypes with
      | nil => exact absurd hts hM
      | cons t rest =>
        rcases hok t (hts ▸ List.mem_cons_self t rest) with ⟨hco, hg⟩
        exact attempted_mem_scanCommit v u c t rest hco (hg c hc)

lemma scanRepoResults_nil_types (v : Collab) (st : Store) (u : String)
    (hM : st.secretTypes = []) : scanRepoResults v st u = [] := by
  unfold scanRepoResults
  split
  · rw [hM]
    simp [scanCommit_nil_types]
  · rfl

/-! Concrete inputs used by witnesses and counterexamples. -/

/-- Secret type of spec Scenario A. -/
def tAws : SecretType := ⟨"AWS Key", "AKIA"⟩

/-- Second secret type, for the two-types-in-one-commit scenarios. -/
def tSsh : SecretType := ⟨"SSH Key", "BEGIN"⟩

/-- Secret type whose pattern does not compile under vOk. -/
def tBad : SecretType := ⟨"Bad", "("⟩

/-- Grep match of tAws in config.yml of commit c1 (tree name c1). -/
def gAws : GrepResult := ⟨"config.yml", 3, "AKIA1234567890ABCDEF", "c1"⟩

/-- Second, distinct grep match of tAws in the same commit. -/
def gAws2 : GrepResult := ⟨"prod.env", 7, "AKIA0000000000000000", "c1"⟩

/-- Grep match of tSsh in the same commit. -/
def gSsh : GrepResult := ⟨"id_rsa", 1, "BEGIN OPENSSH PRIVATE KEY", "c1"⟩

/-- Concrete collaborator: every pattern except the lone parenthesis
compiles; every URL except bad clones; the history is the single commit c1;
grepping c1 for AKIA yields two matches in distinct files, for BEGIN one
match, all carrying the same tree name c1. -/
def vOk : Collab where
  compileOk := fun rx => rx != "("
  cloneOk := fun u => u != "bad"
  log := fun _ => ["c1"]
  grep := fun _ rx _ =>
    if rx = "AKIA" then some [gAws, gAws2]
    else if rx = "BEGIN" then some [gSsh]
    else some []

/-- Store with one registered repository and one secret type. -/
def stScenB : Store := ⟨["r"], [tAws], [], []⟩

/-- Store in which commit c1 of repository r is already marked scanned. -/
def stPre : Store := ⟨["r"], [tAws], [("r", "c1")], []⟩

/-- Store with two secret types that both match within commit c1. -/
def stTwo : Store := ⟨["r"], [tAws, tSsh], [], []⟩

/-- Store whose second secret type has a non-compiling pattern. -/
def stBadType : Store := ⟨["r"], [tAws, tBad], [], []⟩

/-- Store with a registered repository but no secret types at all. -/
def stNoTypes : Store := ⟨["r"], [], [], []⟩

/-! Claim theorems. -/

/-- C3 (confirmed): in every execution of ScanAll or ScanSingleRepo (one scan
invocation per Scanner value, as the CLI performs — each command constructs a
fresh Scanner), the result channel is closed only after every enumerator
(scanRepo goroutine) and every in-flight worker job (scanCommit goroutine)
has finished: every worker send and every enumerator completion
happens-before the close of the result channel, hence no worker ever sends a
result on a closed channel. -/
theorem resultChan_closed_after_all_work :
    (∀ r c k, HB (.send r c k) .closeChan) ∧
      (∀ r, HB (.repoDone r) .closeChan) := by
  constructor
  · intro r c k
    exact HB.trans _ _ _ (HB.send_done r c k)
      (HB.trans _ _ _ (HB.done_innerWait r c)
        (HB.trans _ _ _ (HB.innerWait_repoDone r)
          (HB.trans _ _ _ (HB.repoDone_outerWait r) HB.outerWait_close)))
  · intro r
    exact HB.trans _ _ _ (HB.repoDone_outerWait r) HB.outerWait_close

/-- C5 (confirmed): every commit whose hash is present in the scanned-commit
set read at the start of a run is skipped by the enumerator and never
submitted as a scan job during that run. -/
theorem scanned_commit_never_resubmitted (v : Collab) (st : Store)
    (u c : String) (h : (u, c) ∈ st.scannedCommits) :
    c ∉ scanRepoJobs v st u := by
  intro hc
  unfold scanRepoJobs unscannedCommits at hc
  rcases List.mem_filter.mp hc with ⟨-, hdec⟩
  simp only [decide_eq_true_eq] at hdec
  exact hdec ((mem_scannedHashesFor st u c).mpr h)

/-- Witness for C5: commit c1 of repository r is marked scanned in stPre and
is not among the jobs of a fresh run. -/
theorem scanned_commit_never_resubmitted_witness :
    ("r", "c1") ∈ stPre.scannedCommits ∧ "c1" ∉ scanRepoJobs vOk stPre "r" :=
  ⟨by decide, scanned_commit_never_resubmitted vOk stPre "r" "c1" (by decide)⟩

/-- C9 (confirmed): AddSecretType performs no validation of the supplied
pattern: for every name and every string — in particular one that does not
compile — registration succeeds (afterwards a secret type with that name is
in the store), and the bad pattern is detected only during scanning, when
scanCommit attempts to compile it per job and aborts with an error. -/
theorem addSecretType_no_validation (st : Store) (nm rx : String)
    (v : Collab) (u c : String) (rest : List SecretType)
    (hbad : v.compileOk rx = false) :
    (∃ t ∈ (st.addSecretType nm rx).secretTypes, t.name = nm) ∧
      scanCommit v u c (⟨nm, rx⟩ :: rest) = ([], true) := by
  constructor
  · unfold Store.addSecretType
    split
    · rename_i hex; exact hex
    · exact ⟨⟨nm, rx⟩, by simp, rfl⟩
  · simp [scanCommit, hbad]

/-- Witness for C9: the pattern of tBad does not compile under vOk, yet its
registration succeeds, and scanning detects it. -/
theorem addSecretType_no_validation_witness :
    (∃ t ∈ (stScenB.addSecretType "Bad" "(").secretTypes, t.name = "Bad") ∧
      scanCommit vOk "r" "c1" [⟨"Bad", "("⟩] = ([], true) :=
  addSecretType_no_validation stScenB "Bad" "(" vOk "r" "c1" [] (by decide)

lemma chanRun_scanChanOps_opened (n : Nat) :
    chanRun .opened (scanChanOps n) = some .closed := by
  induction n with
  | zero => rfl
  | succ m ih =>
    unfold scanChanOps at ih ⊢
    rw [List.replicate_succ]
    simpa [chanRun] using ih

lemma chanRun_scanChanOps_closed (n : Nat) :
    chanRun .closed (scanChanOps n) = none := by
  cases n with
  | zero => rfl
  | succ m =>
    unfold scanChanOps
    rw [List.replicate_succ]
    rfl

/-- C10 counterexample: a second call is not always a panic — a second
ScanSingleRepo on an unregistered URL returns the GetRepo error before
touching the channel: it performs no channel operation, so running its (empty)
channel operations against the already-closed channel does not panic, and the
call returns an error instead. -/
theorem second_scan_not_always_panic :
    scanSingleRepo vOk stScenB "nope" = none ∧
      scanSingleRepoChanOps vOk stScenB "nope" = [] ∧
      chanRun .closed (scanSingleRepoChanOps vOk stScenB "nope") =
        some .closed := by decide

/-- C10 (amended, proved): a Scanner value supports at most one scan that
reaches the scanning phase: a first such invocation (ScanAll, or
ScanSingleRepo on a registered URL) drives the single channel created by
NewScanner from open to closed, and a second one either sends on the closed
channel or closes it again — a runtime panic in either case (chanRun = none);
only a second ScanSingleRepo on an unregistered URL escapes with an error
return. -/
theorem second_scan_panics (v : Collab) (st : Store) (u : String)
    (hreg : u ∈ st.repositories) :
    chanRun .opened (scanAllChanOps v st) = some .closed ∧
      chanRun .closed (scanAllChanOps v st) = none ∧
      chanRun .opened (scanSingleRepoChanOps v st u) = some .closed ∧
      chanRun .closed (scanSingleRepoChanOps v st u) = none := by
  refine ⟨chanRun_scanChanOps_opened _, chanRun_scanChanOps_closed _, ?_, ?_⟩
  · unfold scanSingleRepoChanOps
    rw [if_pos hreg]
    exact chanRun_scanChanOps_opened _
  · unfold scanSingleRepoChanOps
    rw [if_pos hreg]
    exact chanRun_scanChanOps_closed _

/-- Witness for the amended C10 at a registered URL. -/
theorem second_scan_panics_witness :
    chanRun .opened (scanAllChanOps vOk stScenB) = some .closed ∧
      chanRun .closed (scanAllChanOps vOk stScenB) = none ∧
      chanRun .opened (scanSingleRepoChanOps vOk stScenB "r") = some .closed ∧
      chanRun .closed (scanSingleRepoChanOps vOk stScenB "r") = none :=
  second_scan_panics vOk stScenB "r" (by decide)

/-- C1 (code bug, evaluated at the failing input): the aggregator inserts a
scanned-commit marker for EVERY received result (scanner.go line 348) and
keeps no per-(repository, commit) count of expected secret-type attempts.
With the two registered secret types of stBadType — the second of which has a
non-compiling pattern — the worker attempts only the first type and aborts
with an error (first conjunct), yet after the run commit c1 carries a
persisted marker (second conjunct): the marker is written while only some of
the secret types registered at job-creation time have been attempted, so on a
later run the commit is skipped and the second type is never evaluated
against it. -/
theorem marker_written_partially :
    (scanCommit vOk "r" "c1" stBadType.secretTypes).2 = true ∧
      stBadType.secretTypes.length = 2 ∧
      ("r", "c1") ∈ (scanRepo vOk stBadType "r").1.scannedCommits := by decide

/-- C2 (code bug, evaluated at the failing input): the findings table's
PRIMARY KEY is (repository, tree_name) (scanner.go line 84) and AddFinding is
INSERT OR IGNORE (line 279).  All matches within one commit carry that
commit's tree name, so of the three distinct secrets found in commit c1 of
repository r (two files matching AWS Key, one matching SSH Key) the store
retains exactly one record; the distinct findings in prod.env (same type,
different file/line) and id_rsa (different type) are silently suppressed. -/
theorem distinct_findings_collapsed :
    (scanRepo vOk stTwo "r").1.findings.length = 1 ∧
      (⟨"prod.env", 7, "AKIA0000000000000000", "c1", "r", "AWS Key"⟩ :
        Finding) ∉ (scanRepo vOk stTwo "r").1.findings ∧
      (⟨"id_rsa", 1, "BEGIN OPENSSH PRIVATE KEY", "c1", "r", "SSH Key"⟩ :
        Finding) ∉ (scanRepo vOk stTwo "r").1.findings := by decide

/-- C4 counterexample: in a job whose first secret type has a non-compiling
pattern and whose second compiles and matches, scanCommit returns immediately
with no results at all, although the remaining secret type alone would have
produced results — a compile failure aborts the rest of the job, refuting the
claim that the remaining secret types are still matched. -/
theorem compile_failure_aborts_job :
    scanCommit vOk "r" "c1" [tBad, tAws] = ([], true) ∧
      (scanCommit vOk "r" "c1" [tAws]).1 ≠ [] := by decide

/-- C6 counterexample: with zero registered secret types the scan of
repository r succeeds (no clone error, and no per-job error is even
possible), yet its HEAD commit c1 never enters the scanned-commit set: the
worker loop body never runs, no result is ever sent, and markers are only
written by the aggregator upon receiving a result — refuting the claim for
the case of zero registered secret types. -/
theorem zero_types_commit_never_marked :
    (scanRepo vOk stNoTypes "r").2 = false ∧
      "c1" ∈ vOk.log "r" ∧
      ("r", "c1") ∉ (scanRepo vOk stNoTypes "r").1.scannedCommits := by decide

/-- C4 (amended, proved): a pattern-compile failure is logged and terminates
that commit's job: the results already sent for the secret types before the
failing one stand, but the failing secret type and every later one are
skipped for that commit and the job ends with an error — whose value the
spawning goroutine discards, so other jobs and repositories are unaffected. -/
theorem compile_failure_scoped_to_job (v : Collab) (u c : String)
    (ts1 : List SecretType) (tb : SecretType) (ts2 : List SecretType)
    (hbad : v.compileOk tb.regex = false)
    (hok : ∀ t ∈ ts1, v.compileOk t.regex = true ∧
      (v.grep u t.regex c).isSome = true) :
    scanCommit v u c (ts1 ++ tb :: ts2) = ((scanCommit v u c ts1).1, true) := by
  induction ts1 with
  | nil => simp [scanCommit, hbad]
  | cons t rest ih =>
    rcases hok t (List.mem_cons_self t rest) with ⟨hco, hg⟩
    rcases Option.isSome_iff_exists.mp hg with ⟨grs, hgrs⟩
    have ih2 := ih (fun x hx => hok x (List.mem_cons_of_mem t hx))
    rw [List.cons_append]
    simp only [scanCommit, hco, hgrs, if_true, ih2]

/-- Witness for the amended C4: the valid first type's results stand, the
rest of the job is aborted. -/
theorem compile_failure_scoped_to_job_witness :
    scanCommit vOk "r" "c1" ([tAws] ++ tBad :: [tSsh]) =
      ((scanCommit vOk "r" "c1" [tAws]).1, true) :=
  compile_failure_scoped_to_job vOk "r" "c1" [tAws] tBad [tSsh] (by decide)
    (by decide)

/-- C6 (amended, proved): after a successful scan of a repository — clone
sequence succeeds and every registered pattern compiles and greps every
commit without error — and provided at least one secret type is registered,
every commit reachable from HEAD at scan start appears exactly once in that
repository's scanned-commit set, including commits that produced zero
findings.  The nodup hypothesis is the PRIMARY KEY invariant of the
scanned_commits table, which every write preserves. -/
lemma beq_pair_iff (x k : String × String) : (x == k) = true ↔ x = k := by
  obtain ⟨a, b⟩ := x
  obtain ⟨c, d⟩ := k
  show (a == c && b == d) = true ↔ _
  simp [Prod.ext_iff]

lemma count_pair_eq_one (l : List (String × String)) (k : String × String)
    (d : l.Nodup) (h : k ∈ l) : l.count k = 1 := by
  rw [← List.count_eq_one_of_mem d h]
  unfold List.count
  exact List.countP_congr (fun x _ => by
    rw [beq_pair_iff]
    show x = k ↔ decide (x = k) = true
    simp)

theorem scanned_set_complete (v : Collab) (st : Store) (u : String)
    (hnodup : st.scannedCommits.Nodup)
    (hclone : v.cloneOk u = true)
    (hM : st.secretTypes ≠ [])
    (hok : ∀ t ∈ st.secretTypes, v.compileOk t.regex = true ∧
      ∀ c ∈ v.log u, (v.grep u t.regex c).isSome = true)
    (c : String) (hc : c ∈ v.log u) :
    (scanRepo v st u).1.scannedCommits.count (u, c) = 1 := by
  have hmem := mem_scanned_after_scanRepo v st u hclone hM hok c hc
  have hnd : (scanRepo v st u).1.scannedCommits.Nodup :=
    nodup_scannedCommits_storeScanResults _ st hnodup
  exact count_pair_eq_one _ _ hnd hmem

/-- Witness for the amended C6: after scanning stScenB, commit c1 is in the
scanned set of repository r exactly once. -/
theorem scanned_set_complete_witness :
    (scanRepo vOk stScenB "r").1.scannedCommits.count ("r", "c1") = 1 :=
  scanned_set_complete vOk stScenB "r" (by decide) (by decide) (by decide)
    (by decide) "c1" (by decide)

lemma repositories_scanRepo (v : Collab) (st : Store) (u : String) :
    (scanRepo v st u).1.repositories = st.repositories :=
  repositories_storeScanResults _ st

lemma secretTypes_scanRepo (v : Collab) (st : Store) (u : String) :
    (scanRepo v st u).1.secretTypes = st.secretTypes :=
  secretTypes_storeScanResults _ st

lemma scanRepo_fixed_of_all_scanned (v : Collab) (st : Store) (u : String)
    (h : ∀ c ∈ v.log u, c ∈ scannedHashesFor st u) :
    (scanRepo v st u).1 = st := by
  have hjobs : scanRepoJobs v st u = [] := by
    unfold scanRepoJobs unscannedCommits
    rw [List.filter_eq_nil_iff]
    intro c hc
    simpa using h c hc
  unfold scanRepo scanRepoResults
  rw [hjobs]
  split <;> rfl

/-- C7 (confirmed): running ScanSingleRepo a second time against an unchanged
remote after a first successful run (registered URL, clone sequence ok, every
pattern compiles and greps without error) inserts zero new findings and zero
new scanned-commit markers: the second call returns exactly the store the
first call produced. -/
theorem scanSingleRepo_idempotent (v : Collab) (st : Store) (u : String)
    (hreg : u ∈ st.repositories)
    (hclone : v.cloneOk u = true)
    (hok : ∀ t ∈ st.secretTypes, v.compileOk t.regex = true ∧
      ∀ c ∈ v.log u, (v.grep u t.regex c).isSome = true) :
    scanSingleRepo v st u = some (scanRepo v st u).1 ∧
      scanSingleRepo v (scanRepo v st u).1 u = some (scanRepo v st u).1 := by
  have hreg1 : u ∈ (scanRepo v st u).1.repositories := by
    rw [repositories_scanRepo]; exact hreg
  constructor
  · unfold scanSingleRepo
    rw [if_pos hreg]
  · unfold scanSingleRepo
    rw [if_pos hreg1]
    cases hM : st.secretTypes with
    | nil =>
      have hfix : (scanRepo v st u).1 = st := by
        unfold scanRepo
        rw [scanRepoResults_nil_types v st u hM]
        rfl
      simp only [hfix]
    | cons t rest =>
      have hall : ∀ c ∈ v.log u,
          c ∈ scannedHashesFor (scanRepo v st u).1 u := by
        intro c hc
        rw [mem_scannedHashesFor]
        exact mem_scanned_after_scanRepo v st u hclone
          (by rw [hM]; exact List.cons_ne_nil t rest) hok c hc
      have hall2 : ∀ c ∈ v.log u,
          c ∈ scannedHashesFor (scanRepo v st u).1 u := hall
      rw [scanRepo_fixed_of_all_scanned v _ u hall2]

/-- Witness for C7: scanning stScenB twice yields the same store as scanning
it once. -/
theorem scanSingleRepo_idempotent_witness :
    scanSingleRepo vOk stScenB "r" = some (scanRepo vOk stScenB "r").1 ∧
      scanSingleRepo vOk (scanRepo vOk stScenB "r").1 "r" =
        some (scanRepo vOk stScenB "r").1 :=
  scanSingleRepo_idempotent vOk stScenB "r" (by decide) (by decide) (by decide)

lemma scanRepo_clone_fail (v : Collab) (st : Store) (x : String)
    (hx : v.cloneOk x = false) : scanRepo v st x = (st, true) := by
  unfold scanRepo scanRepoResults
  rw [hx]
  rfl

lemma keys_scanRepoResults (v : Collab) (st : Store) (u : String) :
    ∀ r ∈ scanRepoResults v st u, r.repoUrl = u := by
  intro r hr
  unfold scanRepoResults at hr
  split at hr
  · rcases List.mem_flatMap.mp hr with ⟨c, _, hrc⟩
    exact (keys_scanCommit v u c st.secretTypes r hrc).1
  · simp at hr

lemma keys_scanRepo (v : Collab) (st : Store) (u : String)
    (k : String × String)
    (h : k ∈ (scanRepo v st u).1.scannedCommits) :
    k ∈ st.scannedCommits ∨ k.1 = u := by
  rcases (mem_scannedCommits_storeScanResults _ st k).mp h with h1 | ⟨r, hr, rfl⟩
  · exact Or.inl h1
  · exact Or.inr (keys_scanRepoResults v st u r hr)

lemma scanAllFrom_no_keys_of_clone_fail (v : Collab) (x h : String)
    (hx : v.cloneOk x = false) :
    ∀ (urls : List String) (st : Store),
      (x, h) ∈ (scanAllFrom v st urls).scannedCommits →
        (x, h) ∈ st.scannedCommits := by
  intro urls
  induction urls with
  | nil => intro st hmem; exact hmem
  | cons u urls ih =>
    intro st hmem
    unfold scanAllFrom at hmem
    rw [List.foldl_cons] at hmem
    have h2 := ih (scanRepo v st u).1 hmem
    rcases keys_scanRepo v st u (x, h) h2 with h3 | h4
    · exact h3
    · simp only at h4
      subst h4
      rw [scanRepo_clone_fail v st x hx] at h2
      exact h2

/-- C8 (confirmed): if cloning a repository fails during its scan, that
repository's scan terminates with an error and its store state is untouched —
in particular no scanned-commit marker is written for any of its commits
during that run (neither by its own aborted scan nor, under ScanAll, by the
scans of the other repositories, whose keys carry their own URLs); and the
failure is scoped to that repository only: the run is exactly the run over
the remaining repositories. -/
theorem clone_failure_scoped (v : Collab) (st : Store) (x : String)
    (hx : v.cloneOk x = false) :
    scanRepo v st x = (st, true) ∧
      (∀ urls, scanAllFrom v st urls =
        scanAllFrom v st (urls.filter (fun u => decide (u ≠ x)))) ∧
      (∀ h, (x, h) ∈ (scanAll v st).scannedCommits →
        (x, h) ∈ st.scannedCommits) := by
  refine ⟨scanRepo_clone_fail v st x hx, ?_, ?_⟩
  · intro urls
    induction urls generalizing st with
    | nil => rfl
    | cons u urls ih =>
      by_cases hu : u = x
      · subst hu
        have hstep : (scanRepo v st u).1 = st := by
          rw [scanRepo_clone_fail v st u hx]
        calc scanAllFrom v st (u :: urls)
            = scanAllFrom v (scanRepo v st u).1 urls := by
              unfold scanAllFrom; rw [List.foldl_cons]
          _ = scanAllFrom v st urls := by rw [hstep]
          _ = scanAllFrom v st (urls.filter (fun w => decide (w ≠ u))) := ih st
          _ = scanAllFrom v st
              ((u :: urls).filter (fun w => decide (w ≠ u))) := by
              simp [List.filter_cons]
      · calc scanAllFrom v st (u :: urls)
            = scanAllFrom v (scanRepo v st u).1 urls := by
              unfold scanAllFrom; rw [List.foldl_cons]
          _ = scanAllFrom v (scanRepo v st u).1
              (urls.filter (fun w => decide (w ≠ x))) := ih (scanRepo v st u).1
          _ = scanAllFrom v st ((u :: urls).filter (fun w => decide (w ≠ x))) := by
              simp only [List.filter_cons, decide_eq_true_eq]
              rw [if_pos hu]
              unfold scanAllFrom
              rw [List.foldl_cons]
  · intro h hmem
    exact scanAllFrom_no_keys_of_clone_fail v x h hx st.repositories st hmem

/-- Witness for C8: cloning bad fails under vOk; its scan is an error leaving
the store untouched, and a ScanAll run over r and bad equals the run over r
alone. -/
theorem clone_failure_scoped_witness :
    scanRepo vOk stScenB "bad" = (stScenB, true) ∧
      scanAllFrom vOk stScenB ["r", "bad"] =
        scanAllFrom vOk stScenB
          (["r", "bad"].filter (fun u => decide (u ≠ "bad"))) :=
  ⟨(clone_failure_scoped vOk stScenB "bad" (by decide)).1,
    (clone_failure_scoped vOk stScenB "bad" (by decide)).2.1 ["r", "bad"]⟩

end GitTokens
